import Mathlib

/-!
# Verification of the upstrail supply-chain diagram editor core

Shallow embedding of the diagram state machine, undo-history manager and
natural-language diagram generator of the upstrail repository, together with
theorems settling the specification claims about them.

Three implementation variants are embedded:
* the "sketch" variant (`src/sketch/app.js`, first document: `StateManager`,
  `NLPParser`, `SupplyChainCanvas`) — the bare names below refer to it;
* the plain canvas variant (`src/unnamed/part_000`) — names suffixed `_p000`;
* the enhanced canvas variant (`src/unnamed/part_001`, second document:
  `StateManager`, `SupplyChainCanvas`) — names suffixed `_p001`.

JavaScript numbers appearing in the embedded code paths only ever hold
integers, so they are modelled as `Int`; deep copies
(`JSON.parse(JSON.stringify(x))`) are the identity in this pure model, and
deep equality is structural equality.  DOM/rendering side effects
(`showStatus`, `queueRender`, `updateUI`, cursor and camera handling) are
outside the embedded state, as are the TextBox pixel dimensions
(`width`/`height`/`fontSize`), which `computeTextBoxDimensions` derives from
canvas text metrics; no claim concerns them.
-/

namespace Upstrail

/-! ## JavaScript-style string helpers -/

/-- Embeds `parseInt(s, 10)`: skip leading whitespace, optional sign, then the
longest digit run; `none` models `NaN`.  (The JS radix prefixes `0x…` never
occur in the embedded call sites.) -/
def jsParseInt (s : String) : Option Int :=
  let cs := s.data.dropWhile (fun c => c.isWhitespace)
  let signAndRest : Bool × List Char :=
    match cs with
    | '-' :: t => (true, t)
    | '+' :: t => (false, t)
    | t => (false, t)
  let digits := signAndRest.2.takeWhile Char.isDigit
  if digits.isEmpty then none
  else
    let v : Int := digits.foldl (fun a c => a * 10 + Int.ofNat (c.toNat - '0'.toNat)) 0
    some (if signAndRest.1 then -v else v)

/-- Split a character list at the first occurrence of `pat`, returning the
text before and after it; `none` when `pat` does not occur.  (Structural
replacement for the position-based core string search, so that proofs can
evaluate it.) -/
def splitFirstAux (pat : List Char) : List Char → List Char → Option (String × String)
  | acc, l =>
    if pat.isPrefixOf l then some (⟨acc.reverse⟩, ⟨l.drop pat.length⟩)
    else
      match l with
      | [] => none
      | c :: t => splitFirstAux pat (c :: acc) t

/-- First occurrence of `pat` in `s`: the text before it and after it. -/
def splitFirst (s pat : String) : Option (String × String) :=
  splitFirstAux pat.data [] s.data

/-- Embeds `s.includes(pat)`. -/
def containsSubstr (s pat : String) : Bool :=
  (splitFirst s pat).isSome

/-- Embeds `s.toLowerCase()` (ASCII, which is all the embedded inputs use). -/
def toLowerStr (s : String) : String :=
  ⟨s.data.map Char.toLower⟩

/-- Embeds `s.replace(/c/g, '')`: drop every occurrence of the character `c`. -/
def stripChar (c : Char) (s : String) : String :=
  ⟨s.data.filter (fun d => !(d == c))⟩

/-- Embeds `s.trim()`. -/
def trimStr (s : String) : String :=
  ⟨((s.data.dropWhile Char.isWhitespace).reverse.dropWhile Char.isWhitespace).reverse⟩

/-- Embeds `text.split(/\s+/)`.  The JS call can additionally yield empty-string
entries at the boundaries; those are inert in every consumer (they match no
quantity word and no keyword), so they are dropped here. -/
def splitWsAux : List String → List Char → List Char → List String
  | out, acc, [] =>
      (if acc.isEmpty then out else ⟨acc.reverse⟩ :: out).reverse
  | out, acc, c :: cs =>
      if c.isWhitespace then
        splitWsAux (if acc.isEmpty then out else ⟨acc.reverse⟩ :: out) [] cs
      else
        splitWsAux out (c :: acc) cs

/-- Embeds `text.split(/\s+/)` (empty boundary entries dropped, see `splitWsAux`). -/
def splitWs (s : String) : List String :=
  splitWsAux [] [] s.data

/-- Embeds `s.split(sep)` for a single-character separator (empty pieces kept, as
in JS). -/
def splitOnCharAux (sep : Char) : List Char → List Char → List String
  | acc, [] => [⟨acc.reverse⟩]
  | acc, c :: cs =>
      if c == sep then ⟨acc.reverse⟩ :: splitOnCharAux sep [] cs
      else splitOnCharAux sep (c :: acc) cs

/-- Embeds `s.split(sep)` for a single-character separator. -/
def splitOnChar (sep : Char) (s : String) : List String :=
  splitOnCharAux sep [] s.data

/-- Embeds `parts.join(sep)`. -/
def joinWith (sep : String) : List String → String
  | [] => ""
  | [x] => x
  | x :: xs => x ++ sep ++ joinWith sep xs

/-- Embeds `word.charAt(0).toUpperCase() + word.slice(1)`. -/
def capWord (w : String) : String :=
  match w.data with
  | [] => ""
  | c :: cs => ⟨c.toUpper :: cs⟩

/-- Embeds `NLPParser.capitalize` (app.js 169-172). -/
def capitalize (s : String) : String :=
  if s = "" then ""
  else joinWith " " ((splitOnChar ' ' s).map capWord)

/-! ## Data model -/

/-- The `type` field of a node: `'material' | 'activity' | 'textbox'`. -/
inductive NodeType where
  | material
  | activity
  | textbox
deriving DecidableEq, Repr

/-- A diagram node.  The sketch/canvas variants store
`{id, type, shape, label, x, y}` (plus rendering-only TextBox dimensions,
omitted — see the file header). -/
structure Node where
  id : String
  type : NodeType
  shape : String
  label : String
  x : Int
  y : Int
deriving DecidableEq, Repr

/-- A connection `{from, to, label}` of the sketch variant. -/
structure Conn where
  «from» : String
  «to» : String
  label : String
deriving DecidableEq, Repr

/-- A connection `{from, to}` of the part_000/part_001 variants. -/
structure Conn001 where
  «from» : String
  «to» : String
deriving DecidableEq, Repr

/-- A freehand stroke of the sketch variant (fields the core state carries;
colours/thickness are rendering data but are part of the saved state). -/
structure Stroke where
  tool : String
  color : String
  width : Int
  points : List (Int × Int)
deriving DecidableEq, Repr

/-- A history snapshot of the sketch variant:
`{nodes, connections, nodeCounter, freehandStrokes}`
(app.js 261-277). -/
structure Snap where
  nodes : List Node
  connections : List Conn
  nodeCounter : Int
  freehandStrokes : List Stroke
deriving DecidableEq, Repr

/-- The clipboard payload `{nodes, connections}` (app.js 2017-2029). -/
structure Clip where
  nodes : List Node
  connections : List Conn
deriving DecidableEq, Repr

/-! ## StateManager (app.js 1-47) -/

/-- Embeds `StateManager`: bounded undo stack.  `maxHistorySize` is the constant 25;
`clipboard` is carried for completeness (set by cut/copy). -/
structure StateManager where
  history : List Snap
  currentIndex : Int
  clipboard : Option Clip
deriving DecidableEq, Repr

/-- Embeds `this.maxHistorySize = 25`. -/
def maxHistorySize : Nat := 25

/-- Embeds `new StateManager()`: empty history, `currentIndex = -1`. -/
def newStateManager : StateManager :=
  { history := [], currentIndex := -1, clipboard := none }

/-- Embeds `StateManager.saveState` (app.js 9-18): truncate beyond the pointer,
push a (deep-copied) snapshot, advance the pointer, and evict the oldest
entry when the stack exceeds `maxHistorySize`. -/
def StateManager.saveState (sm : StateManager) (s : Snap) : StateManager :=
  if (sm.history.take (sm.currentIndex + 1).toNat ++ [s]).length > maxHistorySize then
    { sm with
        history := (sm.history.take (sm.currentIndex + 1).toNat ++ [s]).drop 1
        currentIndex := (sm.currentIndex + 1) - 1 }
  else
    { sm with
        history := sm.history.take (sm.currentIndex + 1).toNat ++ [s]
        currentIndex := sm.currentIndex + 1 }

/-- Embeds `StateManager.undo` (app.js 20-27): if the pointer is positive, decrement
it and return (a deep copy of) the snapshot now at the pointer, else `null`.
The returned pair is (returned value, manager after the call). -/
def StateManager.undo (sm : StateManager) : Option Snap × StateManager :=
  if sm.currentIndex > 0 then
    (sm.history.get? (sm.currentIndex - 1).toNat,
     { sm with currentIndex := sm.currentIndex - 1 })
  else
    (none, sm)

/-! ## SupplyChainCanvas state (sketch variant, app.js 176-2553) -/

/-- The core mutable state of the sketch `SupplyChainCanvas`.  Selections
hold node/stroke references; `connectingFrom` is the pending connect source.
Camera, hover and gesture-progress fields are interaction plumbing outside
every claim and are not part of the saved state. -/
structure Canvas where
  nodes : List Node
  connections : List Conn
  nodeCounter : Int
  freehandStrokes : List Stroke
  selectedNodes : List Node
  selectedStrokes : List Stroke
  connectingFrom : Option Node
  internalClipboard : Option Clip
  stateManager : StateManager
deriving DecidableEq, Repr

/-- The snapshot taken by `SupplyChainCanvas.saveState`/`saveInitialState`
(app.js 261-277). -/
def snapOf (c : Canvas) : Snap :=
  { nodes := c.nodes
    connections := c.connections
    nodeCounter := c.nodeCounter
    freehandStrokes := c.freehandStrokes }

/-- Embeds `SupplyChainCanvas.saveState` (app.js 270-277). -/
def Canvas.saveState (c : Canvas) : Canvas :=
  { c with stateManager := c.stateManager.saveState (snapOf c) }

/-- The canvas right after construction: empty collections, then
`saveInitialState()` pushes the empty snapshot (app.js 176-268). -/
def initialCanvas : Canvas :=
  { nodes := []
    connections := []
    nodeCounter := 0
    freehandStrokes := []
    selectedNodes := []
    selectedStrokes := []
    connectingFrom := none
    internalClipboard := none
    stateManager := newStateManager.saveState
      { nodes := [], connections := [], nodeCounter := 0, freehandStrokes := [] } }

/-- Embeds `SupplyChainCanvas.getNodeShape` (app.js 1087-1090). -/
def getNodeShape (ty : NodeType) : String :=
  match ty with
  | .material => "triangle"
  | .activity => "circle"
  | .textbox => "rectangle"

/-- Embeds `SupplyChainCanvas.addNode` (app.js 1059-1085): assign the next
counter-derived id, default label when the given label is null/empty
(JS falsiness), append, select.  Returns the created node and the new state. -/
def addNode (c : Canvas) (ty : NodeType) (x y : Int) (label : Option String) :
    Node × Canvas :=
  let counter : Int := c.nodeCounter + 1
  let defaultLabel : String :=
    match ty with
    | .material => "Material " ++ toString counter
    | .activity => "Activity " ++ toString counter
    | .textbox => "Click to edit text"
  let lbl : String :=
    match label with
    | some l => if l = "" then defaultLabel else l
    | none => defaultLabel
  let node : Node :=
    { id := "node_" ++ toString counter, type := ty, shape := getNodeShape ty
      label := lbl, x := x, y := y }
  (node,
   { c with nodes := c.nodes ++ [node], selectedNodes := [node], nodeCounter := counter })

/-- The toolbar drag-drop creation path (app.js 334-341):
`saveState()` then `addNode(...)`. -/
def dropAddNode (c : Canvas) (ty : NodeType) (x y : Int) : Canvas :=
  (addNode c.saveState ty x y none).2

/-- Embeds `SupplyChainCanvas.canConnect` (app.js 1114-1118): a node never connects
to itself; any pair involving a TextBox connects; otherwise the types must
differ. -/
def canConnect (a b : Node) : Bool :=
  if a.id == b.id then false
  else if a.type == .textbox || b.type == .textbox then true
  else a.type != b.type

/-- The duplicate-edge test of `createConnection` (app.js 1098-1101):
an edge between the pair already exists in either direction. -/
def edgeExists (c : Canvas) (a b : Node) : Bool :=
  c.connections.any (fun cn =>
    (cn.«from» == a.id && cn.«to» == b.id) || (cn.«from» == b.id && cn.«to» == a.id))

/-- Embeds `SupplyChainCanvas.createConnection` (app.js 1092-1112): reject when
`canConnect` fails or the edge already exists (state untouched, returns
false); otherwise snapshot history, append the edge, clear the pending
source, return true. -/
def createConnection (c : Canvas) (a b : Node) : Bool × Canvas :=
  if !(canConnect a b) then (false, c)
  else if edgeExists c a b then (false, c)
  else
    let c1 := c.saveState
    (true,
     { c1 with
        connections := c1.connections ++ [{ «from» := a.id, «to» := b.id, label := "" }]
        connectingFrom := none })

/-- Embeds `SupplyChainCanvas.deleteNode` (app.js 1154-1161): remove the node and
every connection referencing it. -/
def deleteNode (c : Canvas) (n : Node) : Canvas :=
  { c with
      nodes := c.nodes.filter (fun m => !(m.id == n.id))
      connections := c.connections.filter (fun cn =>
        !(cn.«from» == n.id) && !(cn.«to» == n.id)) }

/-- Embeds `SupplyChainCanvas.undo` (app.js 605-621): ask the manager for the
previous snapshot; on success replace the live state by it and clear
selections and the pending connect source; on `null` only a status notice is
shown. -/
def canvasUndo (c : Canvas) : Canvas :=
  match c.stateManager.undo with
  | (some prev, sm') =>
      { nodes := prev.nodes
        connections := prev.connections
        nodeCounter := prev.nodeCounter
        freehandStrokes := prev.freehandStrokes
        selectedNodes := []
        selectedStrokes := []
        connectingFrom := none
        internalClipboard := c.internalClipboard
        stateManager := sm' }
  | (none, sm') => { c with stateManager := sm' }

/-! ## NLPParser (sketch variant, app.js 49-173) -/

/-- Embeds `this.quantityMap` (app.js 51-54), as a lookup function (JS object
lookup; all values are truthy). -/
def quantityMap (w : String) : Option Int :=
  if w == "one" then some 1 else if w == "a" then some 1
  else if w == "two" then some 2 else if w == "three" then some 3
  else if w == "four" then some 4 else if w == "five" then some 5
  else if w == "multiple" then some 3 else if w == "several" then some 3
  else if w == "many" then some 3 else if w == "a few" then some 3
  else none

/-- Embeds `this.materialKeywords` (app.js 56-62). -/
def materialKeywords : List String :=
  ["raw material", "raw materials", "component", "components", "part", "parts",
   "ingredient", "ingredients",
   "finished good", "finished goods", "finished product", "finished products",
   "product", "products", "item", "items",
   "good", "goods", "inventory", "materials", "material",
   "supplier", "suppliers", "vendor", "vendors", "customer", "customers",
   "store", "stores", "warehouse", "warehouses",
   "distribution center", "dc", "hub", "hubs", "depot", "depots", "plant"]

/-- Embeds `this.activityKeywords` (app.js 64-68). -/
def activityKeywords : List String :=
  ["manufacturing", "assembly", "processing", "production", "produce", "create",
   "make", "build",
   "distribution", "shipping", "delivery", "logistics", "transportation",
   "distribute", "ship", "deliver",
   "consumed in a bom", "consumed", "sent", "transported", "shipped", "truck"]

/-- Number of space-separated words of a keyword (`keyword.split(' ').length`). -/
def wordCount (s : String) : Nat := (splitOnChar ' ' s).length

/-- Stable insertion step for a descending sort: `x` goes after every element
whose key is ≥ its own. -/
def insertDescBy (key : String → Nat) (x : String) : List String → List String
  | [] => [x]
  | y :: ys => if key y < key x then x :: y :: ys else y :: insertDescBy key x ys

/-- Stable sort, descending by `key` — the behaviour of the (stable) JS
`array.sort((a, b) => key(b) - key(a))`. -/
def sortDescBy (key : String → Nat) (l : List String) : List String :=
  l.foldl (fun acc x => insertDescBy key x acc) []

/-- Embeds `[...materialKeywords, ...activityKeywords].sort((a, b) =>
b.split(' ').length - a.split(' ').length)` (app.js 148-149).  The JS code
rebuilds this constant list at every loop position; hoisting it is
observationally identical. -/
def sortedKeywords : List String :=
  sortDescBy wordCount (materialKeywords ++ activityKeywords)

/-- One NL token `{type, label, quantity}` (app.js 155). -/
structure Token where
  type : NodeType
  label : String
  quantity : Int
deriving DecidableEq, Repr

/-- The keyword scan at one position of `tokenize` (app.js 151-160): first
keyword (in sorted order) whose space-joined word count matches the next
words exactly; yields its type (`activityKeywords.includes`), capitalized
label and consumed word count.  Comparing word lists is equivalent to the
JS `words.slice(i, i+n).join(' ') === keyword` because neither side's words
contain spaces. -/
def findFirstKeyword (ws : List String) : Option (NodeType × String × Nat) :=
  sortedKeywords.findSome? (fun kw =>
    let parts := splitOnChar ' ' kw
    if ws.take parts.length == parts then
      some (if activityKeywords.contains kw then NodeType.activity else NodeType.material,
            capitalize kw, parts.length)
    else none)

/-- The `while (i < words.length)` loop of `tokenize` (app.js 139-165),
expressed on the suffix of unconsumed words; `fuel` is the initial word
count — every iteration consumes at least one word, so the fuel never runs
out before the list does. -/
def tokLoop : Nat → List String → List Token
  | 0, _ => []
  | _ + 1, [] => []
  | fuel + 1, w :: rest =>
    let qOpt : Option Int :=
      match quantityMap w with
      | some q => some q
      | none => jsParseInt w
    match qOpt with
    | some q =>
      match rest with
      | [] => []
      | ws =>
        match findFirstKeyword ws with
        | some (ty, lbl, len) =>
            { type := ty, label := lbl, quantity := q } :: tokLoop fuel (ws.drop len)
        | none => tokLoop fuel ws.tail
    | none =>
      match findFirstKeyword (w :: rest) with
      | some (ty, lbl, len) =>
          { type := ty, label := lbl, quantity := 1 } :: tokLoop fuel ((w :: rest).drop len)
      | none => tokLoop fuel rest

/-- Embeds `NLPParser.tokenize` (app.js 134-167). -/
def tokenize (text : String) : List Token :=
  let words := splitWs (stripChar ',' (toLowerStr text))
  tokLoop words.length words

/-- A movement step `{material, source, destination, activity}`
(app.js 102-109). -/
structure MovementStep where
  material : String
  source : String
  destination : String
  activity : String
deriving DecidableEq, Repr

/-- Stable insertion step for the character-length-descending keyword sort of
`findKeyword` (`allKeywords.sort((a, b) => b.length - a.length)`,
app.js 114-115). -/
def insertLenDesc (x : String) : List String → List String
  | [] => [x]
  | y :: ys => if y.length < x.length then x :: y :: ys else y :: insertLenDesc x ys

/-- Embeds `NLPParser.findKeyword` (app.js 113-124): longest (by characters) known
keyword occurring inside the phrase, else the phrase itself as a material. -/
def findKeyword (phrase : String) : NodeType × String :=
  let all := (materialKeywords ++ activityKeywords).foldl
    (fun acc x => insertLenDesc x acc) []
  match all.find? (fun kw => containsSubstr phrase kw) with
  | some kw =>
      (if activityKeywords.contains kw then NodeType.activity else NodeType.material,
       capitalize kw)
  | none => (NodeType.material, capitalize phrase)

/-- Model of a JS regex capture `/anchor ([\w\s]+?)(?=…)/`: `none` exactly
when the anchor does not occur in the text (then the regex cannot match);
otherwise the capture is modelled as the maximal word/space run after the
first anchor occurrence.  Every theorem below only exercises inputs on
which the relevant anchors are absent, where this model coincides with the
JS regex. -/
def jsCaptureAfter (text anchor : String) : Option String :=
  match splitFirst text anchor with
  | some (_, after) =>
      some ⟨after.data.takeWhile (fun c => c.isAlphanum || c == '_' || c.isWhitespace)⟩
  | none => none

/-- Model of a JS regex capture `/([\w\s]+?)(?=anchor)/` for a list of
alternative anchors: `none` exactly when no anchor occurs; otherwise the
text before the first listed anchor that occurs. -/
def jsCaptureBefore (text : String) (anchors : List String) : Option String :=
  anchors.findSome? (fun a =>
    match splitFirst text a with
    | some (before, _) => some before
    | none => none)

/-- Embeds `NLPParser.parseMovement` (app.js 73-111) over the regex capture model
above: extract source (`from …`), destination (`to …`), activity (`via …`
or one of the verbs `sent`/`transported`/`shipped`), and the material phrase
(`… being sent`, `… is sent`, `… being transported`, `… is transported`,
falling back to the phrase before ` from `); produce a single step only when
all four are present, else `null`. -/
def parseMovement (text : String) : Option (List MovementStep) :=
  let fromMatch := jsCaptureAfter text "from "
  let toMatch := jsCaptureAfter text "to "
  let viaMatch := jsCaptureAfter text "via "
  let materialMatch : Option String :=
    match jsCaptureBefore text
        [" being sent", " is sent", " being transported", " is transported"] with
    | some m => some m
    | none =>
      match jsCaptureBefore text [" from "] with
      | some m => some m
      | none => none
  let source := fromMatch.map (fun s => findKeyword (trimStr s))
  let destination := toMatch.map (fun s => findKeyword (trimStr s))
  let activity : Option (NodeType × String) :=
    match viaMatch.map (fun s => findKeyword (trimStr s)) with
    | some a => some a
    | none =>
      (["sent", "transported", "shipped"].findSome? (fun v =>
        if containsSubstr text v then some (NodeType.activity, capitalize v) else none))
  let material := materialMatch.map (fun s => findKeyword (trimStr s))
  match material, source, destination, activity with
  | some m, some s, some d, some a =>
      some [{ material := m.2, source := s.2, destination := d.2, activity := a.2 }]
  | _, _, _, _ => none

/-- The result of `NLPParser.parse`: either movement steps or fallback
tokens (`generateFromNL` distinguishes them by the duck-typed
`result[0].source && result[0].destination` test). -/
inductive ParseResult where
  | steps (l : List MovementStep)
  | tokens (l : List Token)
deriving DecidableEq, Repr

/-- Embeds `NLPParser.parse` (app.js 126-132). -/
def parse (text : String) : ParseResult :=
  match parseMovement (toLowerStr text) with
  | some steps => .steps steps
  | none => .tokens (tokenize text)

/-! ## Diagram generation (sketch variant, app.js 1711-1814) -/

/-- Embeds `SupplyChainCanvas.createConnectionDirect` (app.js 1812-1814): append an
edge without validation or history snapshot. -/
def createConnectionDirect (c : Canvas) (a b : Node) : Canvas :=
  { c with connections := c.connections ++ [{ «from» := a.id, «to» := b.id, label := "" }] }

/-- The `for (let i = 0; i < token.quantity; i++)` fan-out of
`buildDiagramFromTokens` (app.js 1789-1794): create the column's nodes top
to bottom; `i` is the running index, `k` the remaining count. -/
def mkColumn (tk : Token) (x yOffset : Int) : Canvas → Nat → Nat → List Node × Canvas
  | c, _, 0 => ([], c)
  | c, i, k + 1 =>
    let yPos : Int := 250 + Int.ofNat i * 120 - yOffset
    let label := if tk.quantity > 1 then tk.label ++ " " ++ toString (i + 1) else tk.label
    let (n, c') := addNode c tk.type x yPos (some label)
    let (ns, c'') := mkColumn tk x yOffset c' (i + 1) k
    (n :: ns, c'')

/-- The full bipartite connection step of `buildDiagramFromTokens`
(app.js 1796-1804). -/
def connectColumns (c : Canvas) (fromNodes toNodes : List Node) : Canvas :=
  fromNodes.foldl (fun c1 fn =>
    toNodes.foldl (fun c2 tn =>
      if canConnect fn tn then createConnectionDirect c2 fn tn else c2) c1) c

/-- The token loop of `SupplyChainCanvas.buildDiagramFromTokens`
(app.js 1772-1810): consecutive tokens of the previous column's type are
skipped; otherwise the column is laid out (`yStart = 250`, `ySpacing = 120`,
`xIncrement = 200`) and fully connected to the previous column. -/
def buildTokensLoop : Canvas → List Node → Option NodeType → Int → List Token → Canvas
  | c, _, _, _, [] => c
  | c, lastNodes, lastTy, x, tk :: rest =>
    if lastTy == some tk.type then buildTokensLoop c lastNodes lastTy x rest
    else
      let yOffset : Int := ((tk.quantity - 1) * 120) / 2
      let (newNodes, c1) := mkColumn tk x yOffset c 0 tk.quantity.toNat
      let c2 := if lastNodes.isEmpty then c1 else connectColumns c1 lastNodes newNodes
      buildTokensLoop c2 newNodes (some tk.type) (x + 200) rest

/-- Embeds `SupplyChainCanvas.buildDiagramFromTokens` (app.js 1772-1810). -/
def buildDiagramFromTokens (c : Canvas) (tokens : List Token) : Canvas :=
  buildTokensLoop c [] none 150 tokens

/-- Embeds `SupplyChainCanvas.buildDiagramFromSteps` (app.js 1745-1770). -/
def buildStepsLoop : Canvas → Option Node → Int → List MovementStep → Canvas
  | c, _, _, [] => c
  | c, lastNode, x, st :: rest =>
    let (sourceNode, c1) :=
      addNode c .material x 250 (some (st.material ++ "\nat " ++ st.source))
    let c2 :=
      match lastNode with
      | some ln => createConnectionDirect c1 ln sourceNode
      | none => c1
    let (activityNode, c3) := addNode c2 .activity (x + 250) 250 (some st.activity)
    let c4 := createConnectionDirect c3 sourceNode activityNode
    let (destNode, c5) :=
      addNode c4 .material (x + 500) 250 (some (st.material ++ "\nat " ++ st.destination))
    let c6 := createConnectionDirect c5 activityNode destNode
    buildStepsLoop c6 (some destNode) (x + 750) rest

/-- Embeds `SupplyChainCanvas.buildDiagramFromSteps` (app.js 1745-1770):
`currentX` starts at 150, advancing by 250 per node. -/
def buildDiagramFromSteps (c : Canvas) (steps : List MovementStep) : Canvas :=
  buildStepsLoop c none 150 steps

/-- Embeds `SupplyChainCanvas.generateFromNL` (app.js 1711-1743): on nonempty input,
snapshot history, clear the whole diagram state, parse; if nothing was
extracted report failure and roll back via `undo()`, else build the diagram
from the movement steps (when `result[0].source && result[0].destination`)
or from the tokens.  The unreachable duck-typing corner — movement steps
with an empty source/destination label, which the JS would feed into
`buildDiagramFromTokens` producing degenerate nodes from undefined fields —
is left as the cleared state; no claim reaches it. -/
def generateFromNL (c : Canvas) (rawInput : String) : Canvas :=
  let input := trimStr rawInput
  if input == "" then c
  else
    let c1 := c.saveState
    let c2 := { c1 with
      nodes := [], connections := [], selectedNodes := [], selectedStrokes := []
      freehandStrokes := [], connectingFrom := none, nodeCounter := 0 }
    match parse input with
    | .steps [] => canvasUndo c2
    | .steps (h :: t) =>
        if h.source != "" && h.destination != "" then buildDiagramFromSteps c2 (h :: t)
        else c2
    | .tokens [] => canvasUndo c2
    | .tokens ts => buildDiagramFromTokens c2 ts

/-! ## Persistence and clipboard (sketch variant) -/

/-- Tests whether `pat` is a prefix of `s` (`s.startsWith(pat)`). -/
def startsWithStr (s pat : String) : Bool :=
  pat.data.isPrefixOf s.data

/-- The numeric suffix extraction of `handleFileLoad` (app.js 2158-2166):
for an id starting with `node_`, `parseInt(id.split('_')[1], 10)`. -/
def parseNodeNum (id : String) : Option Int :=
  if startsWithStr id "node_" then
    ((splitOnChar '_' id).get? 1).bind jsParseInt
  else none

/-- One step of the `maxId` fold of `handleFileLoad`:
`if (!isNaN(num) && num > maxId) maxId = num`. -/
def loadIdStep (m : Int) (n : Node) : Int :=
  match parseNodeNum n.id with
  | some num => if num > m then num else m
  | none => m

/-- The `maxId` computed by `handleFileLoad` over the loaded nodes
(app.js 2158-2167). -/
def maxLoadedId (nodes : List Node) : Int :=
  nodes.foldl loadIdStep 0

/-- A parsed save-file document (the `|| []` defaults for absent fields are
applied by the caller of this model).  Malformed-JSON handling is outside
the embedding. -/
structure LoadData where
  nodes : List Node
  connections : List Conn
  freehandStrokes : List Stroke
deriving DecidableEq, Repr

/-- Embeds `SupplyChainCanvas.handleFileLoad` (sketch variant, app.js 2145-2187):
snapshot history, replace the graph wholesale, recompute `nodeCounter` as
the maximal `node_<N>` suffix, clear selections.  (TextBox re-measurement
and `resetZoom` are rendering.) -/
def handleFileLoad (c : Canvas) (data : LoadData) : Canvas :=
  let c1 := c.saveState
  { c1 with
      nodes := data.nodes
      connections := data.connections
      freehandStrokes := data.freehandStrokes
      nodeCounter := maxLoadedId data.nodes
      selectedNodes := []
      selectedStrokes := [] }

/-- The node-copy loop shared by `duplicateSelection` (app.js 1996-2004) and
`pasteFromClipboard` (app.js 2043-2052): deep-copy each node, give it the
next counter-derived id and offset it by (20, 20), recording old→new id in
the map.  (`pasteFromClipboard` writes `(orig.x || 0) + 20`; the `|| 0`
guard is the identity on the numeric coordinates modelled here.) -/
def dupNodes (counter : Int) : List Node → List Node × List (String × String) × Int
  | [] => ([], [], counter)
  | n :: rest =>
    ({ n with
        id := "node_" ++ toString (counter + 1)
        x := n.x + 20
        y := n.y + 20 } :: (dupNodes (counter + 1) rest).1,
     (n.id, "node_" ++ toString (counter + 1)) :: (dupNodes (counter + 1) rest).2.1,
     (dupNodes (counter + 1) rest).2.2)

/-- Remap a connection list through the old→new id map, keeping only
connections whose two endpoints were both copied (the
`if (idMap[conn.from] && idMap[conn.to])` guard; `label: conn.label || ''`
is the identity on the string labels modelled here). -/
def remapConns (idMap : List (String × String)) (conns : List Conn) : List Conn :=
  conns.filterMap (fun cn =>
    match idMap.lookup cn.«from», idMap.lookup cn.«to» with
    | some f, some t => some { «from» := f, «to» := t, label := cn.label }
    | _, _ => none)

/-- Embeds `SupplyChainCanvas.duplicateSelection` (app.js 1989-2015): snapshot
history, copy the selected nodes with fresh ids, and append remapped copies
of the connections internal to the selection.  (The JS `forEach` over
`this.connections` captures the length before its own pushes, so it visits
only the pre-existing connections.) -/
def duplicateSelection (c : Canvas) : Canvas :=
  if c.selectedNodes.isEmpty then c
  else
    { c.saveState with
        nodes := c.nodes ++ (dupNodes c.nodeCounter c.selectedNodes).1
        connections := c.connections ++
          remapConns (dupNodes c.nodeCounter c.selectedNodes).2.1 c.connections
        nodeCounter := (dupNodes c.nodeCounter c.selectedNodes).2.2
        selectedNodes := (dupNodes c.nodeCounter c.selectedNodes).1 }

/-- Embeds `SupplyChainCanvas.copySelectionToClipboard` (app.js 2017-2029). -/
def copySelectionToClipboard (c : Canvas) : Canvas :=
  if c.selectedNodes.isEmpty then c
  else
    let ids := c.selectedNodes.map (fun n => n.id)
    let clip : Clip :=
      { nodes := c.selectedNodes
        connections := c.connections.filter (fun cn =>
          ids.contains cn.«from» && ids.contains cn.«to») }
    { c with
        internalClipboard := some clip
        stateManager := { c.stateManager with clipboard := some clip } }

/-- The body of `pasteFromClipboard` once a clipboard payload is in hand
(app.js 2033-2067): empty clipboard is a no-op; otherwise snapshot history,
append the remapped copies — and snapshot history *again* after the
mutation. -/
def pasteClip (c : Canvas) (clip : Clip) : Canvas :=
  if clip.nodes.isEmpty then c
  else
    Canvas.saveState
      { c.saveState with
          nodes := c.nodes ++ (dupNodes c.nodeCounter clip.nodes).1
          connections := c.connections ++
            remapConns (dupNodes c.nodeCounter clip.nodes).2.1 clip.connections
          nodeCounter := (dupNodes c.nodeCounter clip.nodes).2.2
          selectedNodes := (dupNodes c.nodeCounter clip.nodes).1 }

/-- Embeds `SupplyChainCanvas.pasteFromClipboard` (app.js 2031-2068): paste from
`internalClipboard || stateManager.clipboard`, remapping ids fresh. -/
def pasteFromClipboard (c : Canvas) : Canvas :=
  match c.internalClipboard with
  | some cl => pasteClip c cl
  | none =>
    match c.stateManager.clipboard with
    | some cl => pasteClip c cl
    | none => c

/-! ## part_000 variant (src/unnamed/part_000) -/

/-- Embeds `SupplyChainCanvas.canConnect` of part_000 (lines 306-308): just the
alternating-type test (this variant has no TextBox nodes and no id guard). -/
def canConnect_p000 (a b : Node) : Bool :=
  a.type != b.type

/-! ## part_001 variant (src/unnamed/part_001, second document) -/

/-- A history snapshot of the part_001 variant:
`{nodes, connections, nodeCounter}` (part_001 lines 770-784). -/
structure Snap001 where
  nodes : List Node
  connections : List Conn001
  nodeCounter : Int
deriving DecidableEq, Repr

/-- The part_001 `StateManager` (identical algorithm to the sketch one,
part_001 lines 581-629). -/
structure StateManager001 where
  history : List Snap001
  currentIndex : Int
deriving DecidableEq, Repr

/-- Embeds `StateManager.saveState` of part_001 (lines 589-600). -/
def StateManager001.saveState (sm : StateManager001) (s : Snap001) : StateManager001 :=
  if (sm.history.take (sm.currentIndex + 1).toNat ++ [s]).length > maxHistorySize then
    { history := (sm.history.take (sm.currentIndex + 1).toNat ++ [s]).drop 1
      currentIndex := (sm.currentIndex + 1) - 1 }
  else
    { history := sm.history.take (sm.currentIndex + 1).toNat ++ [s]
      currentIndex := sm.currentIndex + 1 }

/-- The core state of the part_001 `SupplyChainCanvas`. -/
structure Canvas001 where
  nodes : List Node
  connections : List Conn001
  nodeCounter : Int
  selectedNodes : List Node
  connectingFrom : Option Node
  stateManager : StateManager001
deriving DecidableEq, Repr

/-- Embeds `saveState` of the part_001 canvas (lines 778-784). -/
def Canvas001.saveState (c : Canvas001) : Canvas001 :=
  { c with stateManager :=
      c.stateManager.saveState ⟨c.nodes, c.connections, c.nodeCounter⟩ }

/-- The part_001 canvas right after construction (`saveInitialState`,
lines 766-776). -/
def initialCanvas001 : Canvas001 :=
  { nodes := []
    connections := []
    nodeCounter := 0
    selectedNodes := []
    connectingFrom := none
    stateManager := StateManager001.saveState ⟨[], -1⟩
      { nodes := [], connections := [], nodeCounter := 0 } }

/-- Embeds `SupplyChainCanvas.canConnect` of part_001 (lines 1241-1244): TextBoxes
never connect; otherwise the alternating-type test. -/
def canConnect_p001 (a b : Node) : Bool :=
  if a.type == .textbox || b.type == .textbox then false
  else a.type != b.type

/-- Embeds `SupplyChainCanvas.addNode` of part_001 (lines 1207-1217); same id,
shape and default-label scheme as the sketch variant. -/
def addNode_p001 (c : Canvas001) (ty : NodeType) (x y : Int) (label : Option String) :
    Node × Canvas001 :=
  let counter : Int := c.nodeCounter + 1
  let defaultLabel : String :=
    match ty with
    | .material => "Material " ++ toString counter
    | .activity => "Activity " ++ toString counter
    | .textbox => "Click to edit text"
  let lbl : String :=
    match label with
    | some l => if l = "" then defaultLabel else l
    | none => defaultLabel
  let node : Node :=
    { id := "node_" ++ toString counter, type := ty, shape := getNodeShape ty
      label := lbl, x := x, y := y }
  (node,
   { c with nodes := c.nodes ++ [node], selectedNodes := [node], nodeCounter := counter })

/-- Embeds `createConnectionDirect` of part_001 (lines 1649-1651). -/
def createConnectionDirect_p001 (c : Canvas001) (a b : Node) : Canvas001 :=
  { c with connections := c.connections ++ [{ «from» := a.id, «to» := b.id }] }

/-- A parsed save-file document for the part_001 loader. -/
structure LoadData001 where
  nodes : List Node
  connections : List Conn001
deriving DecidableEq, Repr

/-- Embeds `SupplyChainCanvas.handleFileLoad` of part_001 (lines 1805-1825):
snapshot history, replace the graph, and set
`this.nodeCounter = this.nodes.length`. -/
def handleFileLoad_p001 (c : Canvas001) (data : LoadData001) : Canvas001 :=
  let c1 := c.saveState
  { c1 with
      nodes := data.nodes
      connections := data.connections
      nodeCounter := Int.ofNat data.nodes.length
      selectedNodes := [] }

/-- Embeds `SupplyChainCanvas.generateFromParsedData` of part_001
(lines 1630-1647): the hard-coded two-raw-materials pattern; any other
input falls through to the empty fallback branch. -/
def generateFromParsedData_p001 (c : Canvas001) (originalInput : String) : Canvas001 :=
  let lowerInput := toLowerStr originalInput
  if containsSubstr lowerInput "two raw materials" &&
     containsSubstr lowerInput "consumed in a bom to produce a finished good" &&
     containsSubstr lowerInput "distributed to a dc" then
    let (rm1, c1) := addNode_p001 c .material 100 150 (some "Raw Material 1")
    let (rm2, c2) := addNode_p001 c1 .material 100 300 (some "Raw Material 2")
    let (prod, c3) := addNode_p001 c2 .activity 300 225 (some "Production")
    let (fg, c4) := addNode_p001 c3 .material 500 225 (some "Finished Good")
    let (dist, c5) := addNode_p001 c4 .activity 700 225 (some "Distribution")
    let (dc, c6) := addNode_p001 c5 .material 900 225 (some "Distribution Center")
    let c7 := createConnectionDirect_p001 c6 rm1 prod
    let c8 := createConnectionDirect_p001 c7 rm2 prod
    let c9 := createConnectionDirect_p001 c8 prod fg
    let c10 := createConnectionDirect_p001 c9 fg dist
    createConnectionDirect_p001 c10 dist dc
  else c

/-- Embeds `SupplyChainCanvas.generateFromNL` of part_001 (lines 1612-1628): on
nonempty input, snapshot history, clear the diagram, and run
`generateFromParsedData`. -/
def generateFromNL_p001 (c : Canvas001) (rawInput : String) : Canvas001 :=
  let input := trimStr rawInput
  if input == "" then c
  else
    let c1 := c.saveState
    let c2 := { c1 with
      nodes := [], connections := [], selectedNodes := []
      connectingFrom := none, nodeCounter := 0 }
    generateFromParsedData_p001 c2 input

/-! ## History-manager runs -/

/-- An abstract history-manager event: one `saveState` (the snapshot taken
just before some mutation, or saved after a gesture) or one `undo` call. -/
inductive HistOp where
  | save (s : Snap)
  | undoStep
deriving DecidableEq, Repr

/-- Run a sequence of history events against a manager. -/
def runOps (sm : StateManager) : List HistOp → StateManager
  | [] => sm
  | .save s :: rest => runOps (sm.saveState s) rest
  | .undoStep :: rest => runOps (sm.undo).2 rest

/-- Number of `saveState` events in a run. -/
def countSaves : List HistOp → Nat
  | [] => 0
  | .save _ :: rest => countSaves rest + 1
  | .undoStep :: rest => countSaves rest

/-- Repeatedly call `undo`, collecting the returned snapshots, with explicit
fuel (each successful `undo` decrements the pointer by one, so
`currentIndex.toNat` steps suffice). -/
def undoN : StateManager → Nat → List Snap
  | _, 0 => []
  | sm, n + 1 =>
    match sm.undo with
    | (some s, sm') => s :: undoN sm' n
    | (none, _) => []

/-- Every snapshot retrievable from a manager by repeated `undo`. -/
def undoAll (sm : StateManager) : List Snap :=
  undoN sm sm.currentIndex.toNat

/-- A family of pairwise distinct snapshots, used for concrete
history-manager runs. -/
def snapN (k : Int) : Snap :=
  { nodes := [], connections := [], nodeCounter := k, freehandStrokes := [] }

/-! ## Shared concrete states -/

/-- A canvas holding one material node, created through the toolbar-drop
path from the fresh canvas. -/
def mCanvas : Canvas := dropAddNode initialCanvas .material 100 100

/-- The NL scenario input of the specification. -/
def scenarioInput : String :=
  "two raw materials consumed in a bom to produce a finished good distributed to a dc"

/-- 25 history saves with pairwise distinct snapshots `snapN 1 … snapN 25`. -/
def saves25 : List HistOp :=
  (List.range 25).map (fun k => HistOp.save (snapN (Int.ofNat k + 1)))

/-- 26 history saves with pairwise distinct snapshots `snapN 1 … snapN 26`. -/
def saves26 : List HistOp :=
  (List.range 26).map (fun k => HistOp.save (snapN (Int.ofNat k + 1)))

/-- The manager after construction plus 25 saves (its stack is full). -/
def smFull : StateManager := runOps initialCanvas.stateManager saves25

/-- The manager after construction plus 26 saves (one eviction beyond full). -/
def smOver : StateManager := runOps initialCanvas.stateManager saves26

/-- The nodes of a save file containing `node_1, node_2, node_4, node_5`
(`node_3` was deleted before saving). -/
def nodesWithGap : List Node :=
  [⟨"node_1", .material, "triangle", "RM 1", 0, 0⟩,
   ⟨"node_2", .activity, "circle", "Act 2", 100, 0⟩,
   ⟨"node_4", .material, "triangle", "RM 4", 200, 0⟩,
   ⟨"node_5", .activity, "circle", "Act 5", 300, 0⟩]

/-- That save file, in the sketch variant's document shape. -/
def gapFile : LoadData := ⟨nodesWithGap, [], []⟩

/-- That save file, in the part_001 variant's document shape. -/
def gapFile001 : LoadData001 := ⟨nodesWithGap, []⟩

/-- A parseable save file whose single connection references nodes that do
not exist in it. -/
def danglingFile : LoadData := ⟨[], [⟨"a", "b", ""⟩], []⟩

/-- A concrete canvas holding one material and one activity node. -/
def twoNodeCanvas : Canvas :=
  { initialCanvas with
      nodes := [⟨"node_1", .material, "triangle", "M", 0, 0⟩,
                ⟨"node_2", .activity, "circle", "A", 100, 0⟩]
      nodeCounter := 2 }

/-- Edge referential integrity, as stated by the specification: every
connection's `from`/`to` references a node currently in the node
collection. -/
def graphOk (c : Canvas) : Bool :=
  c.connections.all (fun e =>
    c.nodes.any (fun n => n.id == e.«from») && c.nodes.any (fun n => n.id == e.«to»))

/-! ## Claim C1 -/

/-- C1, counterexample: in the sketch variant two distinct TextBox nodes —
both created by `addNode`, so of the same kind — satisfy `canConnect`,
refuting "for every pair of nodes of the same kind, `canConnect(a,b)` is
false". -/
theorem canConnect_same_kind_textbox_cex :
    let r1 := addNode initialCanvas .textbox 100 100 none
    let r2 := addNode r1.2 .textbox 300 100 none
    r1.1.type = r2.1.type ∧ r1.1.id ≠ r2.1.id ∧ canConnect r1.1 r2.1 = true := by
  decide

/-- C1 (amended): in the sketch variant, `canConnect` is false for every
same-kind pair of non-TextBox nodes and for every node paired with itself,
and true for every Material/Activity pair with distinct ids (pairs
involving a TextBox are always connectable there — see C10); in the
part_000 variant `canConnect` is exactly the alternating-type test. -/
theorem canConnect_kind_policy :
    (∀ a b : Node, a.type = b.type → a.type ≠ .textbox → canConnect a b = false) ∧
    (∀ a b : Node, a.id ≠ b.id →
      (a.type = .material ∧ b.type = .activity) ∨
        (a.type = .activity ∧ b.type = .material) →
      canConnect a b = true) ∧
    (∀ a : Node, canConnect a a = false) ∧
    (∀ a b : Node, a.type = b.type → canConnect_p000 a b = false) ∧
    (∀ a b : Node, a.type ≠ b.type → canConnect_p000 a b = true) := by
  refine ⟨?_, ?_, ?_, ?_, ?_⟩
  · intro a b hty htb
    cases ha : a.type <;> cases hb : b.type <;>
      simp_all [canConnect]
  · intro a b hid hty
    have hbeq : (a.id == b.id) = false := by simpa using hid
    rcases hty with ⟨ha, hb⟩ | ⟨ha, hb⟩ <;>
      simp [canConnect, hbeq, ha, hb]
  · intro a
    simp [canConnect]
  · intro a b hty
    simp [canConnect_p000, hty]
  · intro a b hty
    simp [canConnect_p000, bne_iff_ne, hty]

/-- C1 witness: the amended policy evaluated on concrete material and
activity nodes. -/
theorem canConnect_kind_policy_witness :
    canConnect ⟨"node_1", .material, "triangle", "M", 0, 0⟩
        ⟨"node_2", .activity, "circle", "A", 0, 0⟩ = true ∧
    canConnect ⟨"node_1", .material, "triangle", "M", 0, 0⟩
        ⟨"node_2", .material, "triangle", "M2", 0, 0⟩ = false ∧
    canConnect_p000 ⟨"node_1", .material, "triangle", "M", 0, 0⟩
        ⟨"node_2", .material, "triangle", "M2", 0, 0⟩ = false := by
  refine ⟨?_, ?_, ?_⟩
  · exact canConnect_kind_policy.2.1 _ _ (by decide) (Or.inl (by exact ⟨rfl, rfl⟩))
  · exact canConnect_kind_policy.1 _ _ rfl (by decide)
  · exact canConnect_kind_policy.2.2.2.1 _ _ rfl

/-! ## Claim C2 -/

/-- C2: `createConnection` succeeds exactly when `canConnect` holds and no
edge between the pair exists in either direction; a rejected call returns
`false` and leaves the canvas — nodes, connections, history stack and
pointer — exactly as it was; a successful call pushes one history snapshot
of the pre-call state and appends exactly one edge. -/
theorem createConnection_atomic :
    ∀ (c : Canvas) (a b : Node),
      ((createConnection c a b).1 = true ↔
        (canConnect a b = true ∧ edgeExists c a b = false)) ∧
      ((createConnection c a b).1 = false → (createConnection c a b).2 = c) ∧
      ((createConnection c a b).1 = true →
        (createConnection c a b).2.connections =
            c.connections ++ [{ «from» := a.id, «to» := b.id, label := "" }] ∧
        (createConnection c a b).2.nodes = c.nodes ∧
        (createConnection c a b).2.stateManager =
            c.stateManager.saveState (snapOf c)) := by
  intro c a b
  by_cases h1 : canConnect a b = true
  · by_cases h2 : edgeExists c a b = true
    · simp [createConnection, h1, h2]
    · have h2' : edgeExists c a b = false := by simpa using h2
      simp [createConnection, Canvas.saveState, h1, h2']
  · have h1' : canConnect a b = false := by simpa using h1
    simp [createConnection, h1']

/-- C2 witness: a concrete rejected call (duplicate edge, reversed
direction) leaves the canvas untouched. -/
theorem createConnection_atomic_witness :
    let na : Node := ⟨"node_1", .material, "triangle", "M", 0, 0⟩
    let nb : Node := ⟨"node_2", .activity, "circle", "A", 100, 0⟩
    let c : Canvas := { initialCanvas with
      nodes := [na, nb], nodeCounter := 2
      connections := [{ «from» := "node_1", «to» := "node_2", label := "" }] }
    (createConnection c nb na).2 = c :=
  (createConnection_atomic _ _ _).2.1 (by decide)

/-! ## Claim C10 -/

/-- C10: the TextBox connectability policy differs between variants — the
sketch variant's `canConnect` accepts every distinct-id pair involving a
TextBox (including TextBox–TextBox), the part_001 canvas variant's
`canConnect` rejects every pair involving a TextBox. -/
theorem textbox_policy_differs :
    (∀ a b : Node, a.id ≠ b.id → (a.type = .textbox ∨ b.type = .textbox) →
      canConnect a b = true) ∧
    (∀ a b : Node, (a.type = .textbox ∨ b.type = .textbox) →
      canConnect_p001 a b = false) := by
  constructor
  · intro a b hid hty
    have hbeq : (a.id == b.id) = false := by simpa using hid
    rcases hty with h | h <;> simp [canConnect, hbeq, h]
  · intro a b hty
    rcases hty with h | h <;> simp [canConnect_p001, h]

/-- C10 witness: a concrete TextBox–TextBox pair connects in the sketch
variant and a concrete TextBox–Material pair is rejected in the part_001
variant. -/
theorem textbox_policy_differs_witness :
    canConnect ⟨"node_1", .textbox, "rectangle", "T1", 0, 0⟩
        ⟨"node_2", .textbox, "rectangle", "T2", 0, 0⟩ = true ∧
    canConnect_p001 ⟨"node_1", .textbox, "rectangle", "T1", 0, 0⟩
        ⟨"node_2", .material, "triangle", "M", 0, 0⟩ = false :=
  ⟨textbox_policy_differs.1 _ _ (by decide) (Or.inl rfl),
   textbox_policy_differs.2 _ _ (Or.inl rfl)⟩

/-! ## Claim C3 -/

/-- C3: the undo round-trip fails on the code.  Starting from the fresh
canvas, add a material node (state `S`, one node), then add an activity
node; `undo()` immediately afterwards restores the *empty* construction
state, not a state deep-equal to `S`: mutating operations snapshot the
pre-mutation state *before* mutating, while `undo` decrements the pointer
before reading, so the most recently saved snapshot is skipped. -/
theorem undo_skips_most_recent_snapshot :
    snapOf (canvasUndo (dropAddNode mCanvas .activity 300 100)) = snapOf initialCanvas ∧
    snapOf (canvasUndo (dropAddNode mCanvas .activity 300 100)) ≠ snapOf mCanvas ∧
    mCanvas.nodes.length = 1 ∧
    (dropAddNode mCanvas .activity 300 100).nodes.length = 2 := by
  decide

/-! ## Claim C8 -/

/-- C8: the rollback of a failed NL generation overshoots.  On the canvas
holding one node, `generateFromNL` with the unparseable input `"xyzzy"`
extracts nothing (`parse` yields the empty token list), reports failure and
calls `undo()` — but the restored state is the *empty* construction state,
not the one-node state from immediately before the attempt: the `undo`
skips the pre-attempt snapshot that `generateFromNL` itself just saved. -/
theorem nl_failure_rollback_overshoots :
    parse "xyzzy" = ParseResult.tokens [] ∧
    snapOf (generateFromNL mCanvas "xyzzy") = snapOf initialCanvas ∧
    snapOf (generateFromNL mCanvas "xyzzy") ≠ snapOf mCanvas := by
  decide

/-! ## Claim C9 -/

/-- C9, counterexample: in the sketch variant (the cited
`NLPParser.tokenize` / `buildDiagramFromTokens` pipeline) the scenario
input yields 4 nodes and 3 edges, not the claimed 6 and 5: `"distributed"`
is not in the activity vocabulary (only `"distribute"` is), and the
alternating-kind filter then drops both the extra `"Produce"` activity
token and the trailing `"Dc"` material token. -/
theorem scenario_sketch_four_nodes_cex :
    (generateFromNL initialCanvas scenarioInput).nodes.length = 4 ∧
    (generateFromNL initialCanvas scenarioInput).connections.length = 3 ∧
    (generateFromNL initialCanvas scenarioInput).nodes.map (fun n => n.type) =
      [.material, .material, .activity, .material] ∧
    ¬((generateFromNL initialCanvas scenarioInput).nodes.length = 6 ∧
      (generateFromNL initialCanvas scenarioInput).connections.length = 5) := by
  decide

/-- C9 (amended): the deterministic 6-node/5-edge diagram
(2 materials → 1 activity → 1 material → 1 activity → 1 material, laid out
left-to-right) is produced by the *part_001* variant, whose
`generateFromParsedData` hard-codes exactly this scenario; the sketch
variant's tokenizer path instead produces the 4-node/3-edge diagram of the
counterexample. -/
theorem scenario_p001_six_nodes :
    (generateFromNL_p001 initialCanvas001 scenarioInput).nodes.length = 6 ∧
    (generateFromNL_p001 initialCanvas001 scenarioInput).connections.length = 5 ∧
    (generateFromNL_p001 initialCanvas001 scenarioInput).nodes.map (fun n => n.type) =
      [.material, .material, .activity, .material, .activity, .material] ∧
    (generateFromNL_p001 initialCanvas001 scenarioInput).nodes.map (fun n => n.x) =
      [100, 100, 300, 500, 700, 900] ∧
    (generateFromNL_p001 initialCanvas001 scenarioInput).connections =
      [⟨"node_1", "node_3"⟩, ⟨"node_2", "node_3"⟩, ⟨"node_3", "node_4"⟩,
       ⟨"node_4", "node_5"⟩, ⟨"node_5", "node_6"⟩] := by
  decide

/-! ## History-manager lemmas -/

/-- Calling `undo` never modifies the history stack itself. -/
theorem undo_preserves_history (sm : StateManager) :
    (sm.undo).2.history = sm.history := by
  unfold StateManager.undo
  split <;> rfl

/-- Calling `undo` never makes the pointer negative if it was not. -/
theorem undo_preserves_nonneg (sm : StateManager) (h : 0 ≤ sm.currentIndex) :
    0 ≤ (sm.undo).2.currentIndex := by
  unfold StateManager.undo
  split
  · next hpos => simp; omega
  · exact h

/-- One `saveState` keeps the stack within the 25-snapshot cap. -/
theorem saveState_length_le (sm : StateManager) (s : Snap)
    (h : sm.history.length ≤ 25) :
    (sm.saveState s).history.length ≤ 25 := by
  have ht : (sm.history.take (sm.currentIndex + 1).toNat).length ≤ sm.history.length := by
    rw [List.length_take]; exact Nat.min_le_right _ _
  unfold StateManager.saveState maxHistorySize
  split
  · next hgt =>
      simp only [List.length_drop, List.length_append, List.length_cons,
        List.length_nil] at *
      omega
  · next hle =>
      simp only [Nat.not_lt, List.length_append, List.length_cons,
        List.length_nil] at *
      omega

/-- Any run of saves and undos keeps the stack within the cap. -/
theorem runOps_length_le : ∀ (ops : List HistOp) (sm : StateManager),
    sm.history.length ≤ 25 → (runOps sm ops).history.length ≤ 25
  | [], _, h => h
  | .save s :: rest, sm, h =>
      runOps_length_le rest _ (saveState_length_le sm s h)
  | .undoStep :: rest, sm, h =>
      runOps_length_le rest _ (by rw [undo_preserves_history]; exact h)

/-- When the stack is full and the pointer is at the top, `saveState` evicts
the oldest entry and leaves the pointer at the top. -/
theorem saveState_evicts (sm : StateManager) (s : Snap)
    (hlen : sm.history.length = 25) (hidx : sm.currentIndex = 24) :
    (sm.saveState s).history = sm.history.drop 1 ++ [s] ∧
    (sm.saveState s).currentIndex = 24 := by
  have htake : sm.history.take (sm.currentIndex + 1).toNat = sm.history := by
    rw [hidx]
    exact List.take_of_length_le (by omega)
  have hlen2 : (sm.history.take (sm.currentIndex + 1).toNat ++ [s]).length = 26 := by
    rw [htake]; simp [hlen]
  unfold StateManager.saveState maxHistorySize
  rw [htake]
  split
  · next hgt =>
      constructor
      · rw [List.drop_append_of_le_length (by omega)]
      · simp only
        omega
  · next hle =>
      exfalso
      simp only [List.length_append, List.length_cons, List.length_nil, hlen] at hle
      omega

/-- Repeated `undo` returns exactly the snapshots strictly below the
pointer, newest first. -/
theorem undoN_eq_take_reverse (n : Nat) : ∀ (sm : StateManager),
    sm.currentIndex.toNat = n → n ≤ sm.history.length →
    undoN sm n = (sm.history.take n).reverse := by
  induction n with
  | zero => intro sm _ _; rfl
  | succ k ih =>
    intro sm hidx hle
    have hpos : 0 < sm.currentIndex := by omega
    have hk : (sm.currentIndex - 1).toNat = k := by omega
    have hklt : k < sm.history.length := by omega
    have hget : sm.history.get? ((sm.currentIndex - 1).toNat) =
        some (sm.history.get ⟨k, hklt⟩) := by
      rw [hk]; exact List.get?_eq_get hklt
    have hstep : sm.undo =
        (some (sm.history.get ⟨k, hklt⟩), { sm with currentIndex := sm.currentIndex - 1 }) := by
      unfold StateManager.undo
      rw [if_pos hpos, hget]
    have htail : undoN sm (k + 1) =
        sm.history.get ⟨k, hklt⟩ ::
          undoN { sm with currentIndex := sm.currentIndex - 1 } k := by
      show (match sm.undo with
        | (some s, sm') => s :: undoN sm' k
        | (none, _) => []) = _
      rw [hstep]
    rw [htail, ih { sm with currentIndex := sm.currentIndex - 1 }
      (by show (sm.currentIndex - 1).toNat = k; exact hk)
      (by show k ≤ sm.history.length; omega)]
    have htake : sm.history.take (k + 1) =
        sm.history.take k ++ [sm.history.get ⟨k, hklt⟩] := by
      rw [List.take_succ]
      congr 1
      rw [List.getElem?_eq_getElem hklt]
      rfl
    rw [htake, List.reverse_append]
    rfl

/-- Count preservation of the construction snapshot at index 0: as long as
eviction has not occurred (the live stack plus the remaining saves fit in
the cap), every run of saves and undos keeps the head of the history. -/
theorem runOps_head_preserved : ∀ (ops : List HistOp) (sm : StateManager) (s0 : Snap),
    0 ≤ sm.currentIndex → sm.history.head? = some s0 →
    sm.history.length + countSaves ops ≤ 25 →
    (runOps sm ops).history.head? = some s0 := by
  intro ops
  induction ops with
  | nil => intro sm s0 _ hhead _; exact hhead
  | cons op rest ih =>
    intro sm s0 hnn hhead hsum
    cases op with
    | save s =>
      obtain ⟨t, hh⟩ : ∃ t, sm.history = s0 :: t := by
        cases hl : sm.history with
        | nil => rw [hl] at hhead; simp at hhead
        | cons a t =>
          rw [hl] at hhead
          simp at hhead
          exact ⟨t, by rw [hhead]⟩
      obtain ⟨k', hk'⟩ : ∃ k', (sm.currentIndex + 1).toNat = k' + 1 := by
        refine ⟨(sm.currentIndex).toNat, ?_⟩
        omega
      have hcs : countSaves (.save s :: rest) = countSaves rest + 1 := rfl
      have htake : sm.history.take (sm.currentIndex + 1).toNat =
          s0 :: t.take k' := by
        rw [hh, hk', List.take_succ_cons]
      have hlen1 : (sm.history.take (sm.currentIndex + 1).toNat ++ [s]).length ≤
          sm.history.length + 1 := by
        simp only [List.length_append, List.length_take, List.length_cons,
          List.length_nil]
        omega
      have hguard : ¬ (sm.history.take (sm.currentIndex + 1).toNat ++ [s]).length >
          maxHistorySize := by
        unfold maxHistorySize
        simp only [List.length_append, List.length_take, List.length_cons,
          List.length_nil]
        rw [hcs] at hsum
        omega
      have hsave : sm.saveState s =
          { sm with
              history := sm.history.take (sm.currentIndex + 1).toNat ++ [s]
              currentIndex := sm.currentIndex + 1 } := by
        unfold StateManager.saveState
        rw [if_neg hguard]
      show (runOps (sm.saveState s) rest).history.head? = some s0
      refine ih (sm.saveState s) s0 ?_ ?_ ?_
      · rw [hsave]
        show 0 ≤ sm.currentIndex + 1
        omega
      · rw [hsave]
        show (sm.history.take (sm.currentIndex + 1).toNat ++ [s]).head? = some s0
        rw [htake]
        rfl
      · rw [hsave]
        show (sm.history.take (sm.currentIndex + 1).toNat ++ [s]).length +
            countSaves rest ≤ 25
        rw [hcs] at hsum
        omega
    | undoStep =>
      show (runOps (sm.undo).2 rest).history.head? = some s0
      exact ih _ s0 (undo_preserves_nonneg sm hnn)
        (by rw [undo_preserves_history]; exact hhead)
        (by rw [undo_preserves_history]; exact hsum)

/-! ## Claim C4 -/

set_option maxRecDepth 100000 in
/-- C4, counterexample: after 26 sequential mutations (each saving its
pre-state) the stack does hold the 25 most recent snapshots, but they are
*not* exactly the states retrievable via repeated undo: the newest stored
snapshot `snapN 26` is never returned (only 24 snapshots are retrievable),
because `undo` decrements the pointer before reading. -/
theorem history_newest_not_retrievable_cex :
    smOver.history.length = 25 ∧
    snapN 26 ∈ smOver.history ∧
    snapN 26 ∉ undoAll smOver ∧
    (undoAll smOver).length = 24 := by
  decide

/-- C4 (amended): the stack length never exceeds 25 on any run from
construction; when a push would exceed 25 the oldest entry is evicted and
the pointer decremented so its relative position is preserved; and repeated
undo retrieves exactly the snapshots strictly *below* the pointer (newest
first) — after more than 25 sequential mutations that is only the 24 oldest
of the 25 stored snapshots, the newest one being skipped. -/
theorem history_bound_evict_retrieve :
    (∀ ops : List HistOp,
      (runOps initialCanvas.stateManager ops).history.length ≤ 25) ∧
    (∀ (sm : StateManager) (s : Snap),
      sm.history.length = 25 → sm.currentIndex = 24 →
      (sm.saveState s).history = sm.history.drop 1 ++ [s] ∧
      (sm.saveState s).currentIndex = 24) ∧
    (∀ sm : StateManager, sm.currentIndex.toNat ≤ sm.history.length →
      undoAll sm = (sm.history.take sm.currentIndex.toNat).reverse) := by
  refine ⟨?_, saveState_evicts, ?_⟩
  · intro ops
    exact runOps_length_le ops _ (by decide)
  · intro sm h
    exact undoN_eq_take_reverse _ sm rfl h

set_option maxRecDepth 100000 in
/-- C4 witness: the amended behaviour evaluated on the concrete full stack
`smFull` (25 snapshots, pointer at 24). -/
theorem history_bound_evict_retrieve_witness :
    (smFull.saveState (snapN 99)).history = smFull.history.drop 1 ++ [snapN 99] ∧
    (smFull.saveState (snapN 99)).currentIndex = 24 ∧
    undoAll smFull = (smFull.history.take 24).reverse := by
  have h := history_bound_evict_retrieve
  have h2 := h.2.1 smFull (snapN 99) (by decide) (by decide)
  have h3 := h.2.2 smFull (by decide)
  have hidx : smFull.currentIndex.toNat = 24 := by decide
  rw [hidx] at h3
  exact ⟨h2.1, h2.2, h3⟩

/-! ## Claim C5 -/

set_option maxRecDepth 100000 in
/-- C5, counterexample: a reachable manager state whose index-0 snapshot is
*not* the construction-time snapshot — after 25 mutation saves the cap
evicts the construction snapshot `snapN 0` and index 0 holds `snapN 1`. -/
theorem baseline_evicted_cex :
    initialCanvas.stateManager.history.head? = some (snapN 0) ∧
    smFull.history.head? = some (snapN 1) ∧
    smFull.history.head? ≠ some (snapN 0) := by
  decide

/-- C5 (amended): the snapshot at index 0 equals the construction-time
snapshot for as long as no eviction can have occurred — that is, on every
run with at most 24 further saves after construction; the 26th push evicts
it (see the counterexample). -/
theorem baseline_preserved_before_eviction :
    ∀ (s0 : Snap) (ops : List HistOp), countSaves ops ≤ 24 →
      (runOps (newStateManager.saveState s0) ops).history.head? = some s0 := by
  intro s0 ops h
  have hinit : newStateManager.saveState s0 =
      { history := [s0], currentIndex := 0, clipboard := none } := rfl
  rw [hinit]
  exact runOps_head_preserved ops _ s0 (by norm_num) rfl (by simp; omega)

/-- C5 witness: two saves after construction keep the construction snapshot
at index 0. -/
theorem baseline_preserved_before_eviction_witness :
    (runOps (newStateManager.saveState (snapN 0))
      [HistOp.save (snapN 1), HistOp.save (snapN 2)]).history.head? =
        some (snapN 0) :=
  baseline_preserved_before_eviction (snapN 0) _ (by decide)

/-! ## Load-counter lemmas -/

/-- The `maxId` fold never decreases. -/
theorem loadIdStep_le (m : Int) (n : Node) : m ≤ loadIdStep m n := by
  cases h : parseNodeNum n.id with
  | none => simp [loadIdStep, h]
  | some num =>
      simp only [loadIdStep, h]
      split <;> omega

/-- The `maxId` fold result dominates its starting value. -/
theorem foldl_loadIdStep_le : ∀ (l : List Node) (m : Int), m ≤ l.foldl loadIdStep m
  | [], m => le_refl m
  | n :: rest, m =>
      le_trans (loadIdStep_le m n) (foldl_loadIdStep_le rest (loadIdStep m n))

/-- The `maxId` fold result dominates every parsed `node_<N>` suffix of the
list. -/
theorem le_foldl_loadIdStep : ∀ (l : List Node) (m : Int) (n : Node) (k : Int),
    n ∈ l → parseNodeNum n.id = some k → k ≤ l.foldl loadIdStep m
  | [], _, n, _, h, _ => absurd h (List.not_mem_nil n)
  | x :: rest, m, n, k, h, hp => by
    rcases List.mem_cons.mp h with heq | hmem
    · subst heq
      have h1 : k ≤ loadIdStep m n := by
        simp only [loadIdStep, hp]
        split <;> omega
      exact le_trans h1 (foldl_loadIdStep_le rest (loadIdStep m n))
    · exact le_foldl_loadIdStep rest (loadIdStep m x) n k hmem hp

/-! ## Claim C6 -/

/-- C6, counterexample: the part_001 loader sets `nodeCounter` to the
*number* of loaded nodes, not the maximal `node_<N>` suffix.  Loading the
gap file (`node_1, node_2, node_4, node_5`; highest suffix 5) yields
`nodeCounter = 4`, and the next `addNode` produces the id `node_5` — a
collision with a node already present. -/
theorem load_p001_nodeCounter_cex :
    (handleFileLoad_p001 initialCanvas001 gapFile001).nodeCounter = 4 ∧
    maxLoadedId gapFile001.nodes = 5 ∧
    (addNode_p001 (handleFileLoad_p001 initialCanvas001 gapFile001)
      .material 400 100 none).1.id = "node_5" ∧
    (handleFileLoad_p001 initialCanvas001 gapFile001).nodes.any
      (fun n => n.id == "node_5") = true := by
  decide

/-- C6 (amended): in the *sketch* variant, `handleFileLoad` recomputes
`nodeCounter` as the fold dominating every `node_<N>` suffix of the loaded
file (0 if none), so loading the gap file (highest id `node_5`, `node_3`
deleted before saving) yields `nodeCounter = 5` and the next `addNode`
produces the fresh id `node_6`; the part_001 canvas variant instead sets
`nodeCounter` to the number of loaded nodes, which can collide (see the
counterexample). -/
theorem load_nodeCounter_dominates_ids :
    (∀ (c : Canvas) (data : LoadData) (n : Node) (k : Int),
      n ∈ data.nodes → parseNodeNum n.id = some k →
      k ≤ (handleFileLoad c data).nodeCounter) ∧
    ((handleFileLoad initialCanvas gapFile).nodeCounter = 5 ∧
     (addNode (handleFileLoad initialCanvas gapFile) .material 400 100 none).1.id =
       "node_6" ∧
     (handleFileLoad initialCanvas gapFile).nodes.all
       (fun n => !(n.id == "node_6")) = true) ∧
    (handleFileLoad initialCanvas
      ⟨[⟨"m1", .material, "triangle", "RM", 0, 0⟩], [], []⟩).nodeCounter = 0 := by
  refine ⟨?_, by decide, by decide⟩
  intro c data n k hmem hp
  show k ≤ maxLoadedId data.nodes
  exact le_foldl_loadIdStep data.nodes 0 n k hmem hp

/-- C6 witness: the highest loaded suffix 5 is dominated by the recomputed
counter of the sketch loader on the gap file. -/
theorem load_nodeCounter_dominates_ids_witness :
    (5 : Int) ≤ (handleFileLoad initialCanvas gapFile).nodeCounter :=
  load_nodeCounter_dominates_ids.1 initialCanvas gapFile
    ⟨"node_5", .activity, "circle", "Act 5", 300, 0⟩ 5 (by decide) (by decide)

/-! ## Edge-integrity lemmas -/

/-- The predicate `graphOk` in propositional form. -/
theorem graphOk_eq_true_iff (c : Canvas) :
    graphOk c = true ↔
      ∀ e ∈ c.connections,
        (∃ m ∈ c.nodes, m.id = e.«from») ∧ (∃ m ∈ c.nodes, m.id = e.«to») := by
  unfold graphOk
  simp only [List.all_eq_true, List.any_eq_true, Bool.and_eq_true, beq_iff_eq]

/-- A successful `List.lookup` pair is a member of the association list. -/
theorem lookup_mem : ∀ (m : List (String × String)) (k v : String),
    m.lookup k = some v → (k, v) ∈ m
  | [], _, _, h => by simp [List.lookup] at h
  | (a, b) :: rest, k, v, h => by
    rw [List.lookup] at h
    split at h
    · next heq =>
        cases h
        have : k = a := by simpa using heq
        simp [this]
    · next hne =>
        exact List.mem_cons_of_mem _ (lookup_mem rest k v h)

/-- Every new id recorded by the `dupNodes` loop is the id of one of the
created nodes. -/
theorem dupNodes_map_to_created : ∀ (sel : List Node) (counter : Int) (o nw : String),
    (o, nw) ∈ (dupNodes counter sel).2.1 →
    ∃ nn ∈ (dupNodes counter sel).1, nn.id = nw
  | [], _, _, _, h => absurd h (List.not_mem_nil _)
  | n :: rest, counter, o, nw, h => by
    rw [dupNodes] at h ⊢
    rcases List.mem_cons.mp h with heq | hmem
    · cases heq
      exact ⟨_, List.mem_cons_self _ _, rfl⟩
    · obtain ⟨nn, hnn, hid⟩ := dupNodes_map_to_created rest (counter + 1) o nw hmem
      exact ⟨nn, List.mem_cons_of_mem _ hnn, hid⟩

/-- Every connection produced by `remapConns` references only ids created by
the corresponding `dupNodes` run. -/
theorem remapConns_endpoints (sel : List Node) (counter : Int) (conns : List Conn)
    (e : Conn) (he : e ∈ remapConns (dupNodes counter sel).2.1 conns) :
    (∃ nn ∈ (dupNodes counter sel).1, nn.id = e.«from») ∧
    (∃ nn ∈ (dupNodes counter sel).1, nn.id = e.«to») := by
  obtain ⟨cn, _, hcn⟩ := List.mem_filterMap.mp he
  rcases hf : (dupNodes counter sel).2.1.lookup cn.«from» with _ | f <;>
    rcases ht : (dupNodes counter sel).2.1.lookup cn.«to» with _ | t <;>
      rw [hf, ht] at hcn <;> simp at hcn
  cases hcn
  exact ⟨dupNodes_map_to_created sel counter _ _ (lookup_mem _ _ _ hf),
         dupNodes_map_to_created sel counter _ _ (lookup_mem _ _ _ ht)⟩

/-- Pasting via `pasteClip` preserves edge referential integrity: old connections keep
their endpoints, new connections reference only the freshly created nodes. -/
theorem pasteClip_preserves (c : Canvas) (clip : Clip) (h : graphOk c = true) :
    graphOk (pasteClip c clip) = true := by
  unfold pasteClip
  split
  · exact h
  · rw [graphOk_eq_true_iff] at h ⊢
    intro e he
    rcases List.mem_append.mp he with hold | hnew
    · obtain ⟨⟨mf, hmf, hmf2⟩, ⟨mt, hmt, hmt2⟩⟩ := h e hold
      exact ⟨⟨mf, List.mem_append_left _ hmf, hmf2⟩,
             ⟨mt, List.mem_append_left _ hmt, hmt2⟩⟩
    · obtain ⟨⟨nf, hnf, hnf2⟩, ⟨nt, hnt, hnt2⟩⟩ :=
        remapConns_endpoints clip.nodes c.nodeCounter clip.connections e hnew
      exact ⟨⟨nf, List.mem_append_right _ hnf, hnf2⟩,
             ⟨nt, List.mem_append_right _ hnt, hnt2⟩⟩

/-! ## Claim C7 -/

/-- C7, counterexample: `handleFileLoad` installs the loaded document's
connections without any referential validation, so loading a parseable file
whose connection references absent node ids produces a reachable state with
a dangling edge — refuting both "in every reachable graph state every edge
references present nodes" and "load preserves the invariant". -/
theorem load_breaks_edge_integrity_cex :
    graphOk (handleFileLoad initialCanvas danglingFile) = false ∧
    (handleFileLoad initialCanvas danglingFile).connections ≠ [] := by
  decide

/-- C7 (amended): edge referential integrity is established by `deleteNode`
(after it, no edge references the deleted node, and a valid graph stays
valid) and preserved by `addNode`, by `createConnection` applied to nodes of
the collection, by `duplicateSelection` and by `pasteFromClipboard`; but
`handleFileLoad` performs no validation, so a loaded document can violate
it (see the counterexample). -/
theorem edge_integrity_preserved :
    (∀ (c : Canvas) (n : Node),
      (deleteNode c n).connections.all
        (fun e => !(e.«from» == n.id) && !(e.«to» == n.id)) = true) ∧
    (∀ (c : Canvas) (n : Node), graphOk c = true → graphOk (deleteNode c n) = true) ∧
    (∀ (c : Canvas) (ty : NodeType) (x y : Int) (lbl : Option String),
      graphOk c = true → graphOk (addNode c ty x y lbl).2 = true) ∧
    (∀ (c : Canvas) (a b : Node), a ∈ c.nodes → b ∈ c.nodes →
      graphOk c = true → graphOk (createConnection c a b).2 = true) ∧
    (∀ c : Canvas, graphOk c = true → graphOk (duplicateSelection c) = true) ∧
    (∀ c : Canvas, graphOk c = true → graphOk (pasteFromClipboard c) = true) := by
  refine ⟨?_, ?_, ?_, ?_, ?_, ?_⟩
  · -- deleteNode cascades: the kept edges satisfy the very filter predicate
    intro c n
    rw [List.all_eq_true]
    intro e he
    exact (List.mem_filter.mp he).2
  · -- deleteNode preserves validity
    intro c n h
    rw [graphOk_eq_true_iff] at h ⊢
    intro e he
    obtain ⟨hec, hpred⟩ := List.mem_filter.mp he
    have hne : e.«from» ≠ n.id ∧ e.«to» ≠ n.id := by
      simpa using hpred
    obtain ⟨⟨mf, hmf, hmf2⟩, ⟨mt, hmt, hmt2⟩⟩ := h e hec
    constructor
    · exact ⟨mf, List.mem_filter.mpr ⟨hmf, by simp [hmf2, hne.1]⟩, hmf2⟩
    · exact ⟨mt, List.mem_filter.mpr ⟨hmt, by simp [hmt2, hne.2]⟩, hmt2⟩
  · -- addNode preserves validity (connections unchanged, nodes extended)
    intro c ty x y lbl h
    rw [graphOk_eq_true_iff] at h ⊢
    intro e he
    obtain ⟨⟨mf, hmf, hmf2⟩, ⟨mt, hmt, hmt2⟩⟩ := h e he
    exact ⟨⟨mf, List.mem_append_left _ hmf, hmf2⟩,
           ⟨mt, List.mem_append_left _ hmt, hmt2⟩⟩
  · -- createConnection preserves validity when its arguments are nodes
    intro c a b ha hb h
    by_cases h1 : canConnect a b = true
    · by_cases h2 : edgeExists c a b = true
      · simpa [createConnection, h1, h2] using h
      · have h2' : edgeExists c a b = false := by simpa using h2
        rw [graphOk_eq_true_iff] at h ⊢
        simp only [createConnection, h1, h2', Bool.not_true, Canvas.saveState,
          Bool.false_eq_true, if_false, ite_false, ite_true]
        intro e he
        rcases List.mem_append.mp he with hold | hnew
        · exact h e hold
        · have : e = { «from» := a.id, «to» := b.id, label := "" } := by
            simpa using hnew
          subst this
          exact ⟨⟨a, ha, rfl⟩, ⟨b, hb, rfl⟩⟩
    · have h1' : canConnect a b = false := by simpa using h1
      simpa [createConnection, h1'] using h
  · -- duplicateSelection preserves validity
    intro c h
    unfold duplicateSelection
    split
    · exact h
    · rw [graphOk_eq_true_iff] at h ⊢
      intro e he
      rcases List.mem_append.mp he with hold | hnew
      · obtain ⟨⟨mf, hmf, hmf2⟩, ⟨mt, hmt, hmt2⟩⟩ := h e hold
        exact ⟨⟨mf, List.mem_append_left _ hmf, hmf2⟩,
               ⟨mt, List.mem_append_left _ hmt, hmt2⟩⟩
      · obtain ⟨⟨nf, hnf, hnf2⟩, ⟨nt, hnt, hnt2⟩⟩ :=
          remapConns_endpoints c.selectedNodes c.nodeCounter c.connections e hnew
        exact ⟨⟨nf, List.mem_append_right _ hnf, hnf2⟩,
               ⟨nt, List.mem_append_right _ hnt, hnt2⟩⟩
  · -- pasteFromClipboard preserves validity
    intro c h
    unfold pasteFromClipboard
    cases c.internalClipboard with
    | some cl => exact pasteClip_preserves c cl h
    | none =>
      cases c.stateManager.clipboard with
      | some cl => exact pasteClip_preserves c cl h
      | none => exact h

/-- C7 witness: the preservation statements evaluated on a concrete valid
two-node canvas. -/
theorem edge_integrity_preserved_witness :
    graphOk (deleteNode twoNodeCanvas ⟨"node_1", .material, "triangle", "M", 0, 0⟩) =
      true ∧
    graphOk (createConnection twoNodeCanvas
      ⟨"node_1", .material, "triangle", "M", 0, 0⟩
      ⟨"node_2", .activity, "circle", "A", 100, 0⟩).2 = true :=
  ⟨edge_integrity_preserved.2.1 twoNodeCanvas _ (by decide),
   edge_integrity_preserved.2.2.2.1 twoNodeCanvas _ _ (by decide) (by decide)
     (by decide)⟩

end Upstrail
